import Mathlib

/-!
Verification of the astrological point-derivation and formatting engine of the
Astro-POC repository.  The two controller files (called `Part0` and `Part2`
below, after `src/unnamed/part_000` and `src/unnamed/part_002`) are shallowly
embedded over exact rational arithmetic: JavaScript's sign-preserving `%`
operator becomes `jsMod`, `Math.floor` becomes `Int.floor`, and the external
`sweph` / `Math` trigonometric collaborators become explicit records of
functions passed to the embedded deriver.
-/

set_option maxRecDepth 4000
set_option linter.unusedSectionVars false
set_option linter.unusedVariables false

section CoreArith

variable {α : Type} [LinearOrderedField α] [FloorRing α]

/-- Truncation toward zero, the rounding used by JavaScript's `%` operator. -/
def jsTrunc (x : α) : ℤ :=
  if 0 ≤ x then ⌊x⌋ else -⌊-x⌋

/-- JavaScript's remainder operator `x % y`: the result carries the sign of the
dividend, `x - y * trunc (x / y)`. -/
def jsMod (x y : α) : α :=
  x - y * (jsTrunc (x / y) : α)

/-- True mathematical modulus `x - y * ⌊x / y⌋`; for `y > 0` the result lies in
`[0, y)`.  Used as the specification-side reduction `mod 360`. -/
def mathMod (x y : α) : α :=
  x - y * (⌊x / y⌋ : α)

/-- The inline normalization idiom of `part_000` (`computeVertex`, lines 89-93
and the Fortune block, line 195): add 360 once if the value is negative. -/
def condAdd360 (x : α) : α :=
  if x < 0 then x + 360 else x

/-- The inline normalization idiom of `part_002` (Fortune block, lines 139-141
and the node adjustment, line 56): `(x + 360) % 360` with JavaScript `%`. -/
def addMod360 (x : α) : α :=
  jsMod (x + 360) 360

/-- Modelled from the spec: `AngleMath.normalize360` (§4.1), the function
`((x % 360) + 360) % 360` that the spec requires before classification and
output.  The repository never defines it as a named function; it is the
comparator for the inline idioms above. -/
def normalize360 (x : α) : α :=
  jsMod (jsMod x 360 + 360) 360

lemma jsTrunc_of_nonneg {x : α} (h : 0 ≤ x) : jsTrunc x = ⌊x⌋ := by
  simp [jsTrunc, h]

lemma jsTrunc_of_neg {x : α} (h : x < 0) : jsTrunc x = ⌈x⌉ := by
  simp only [jsTrunc, not_le.mpr h, if_false, Int.floor_neg, neg_neg]

lemma mathMod_nonneg (x : α) {y : α} (hy : 0 < y) : 0 ≤ mathMod x y := by
  have h : (⌊x / y⌋ : α) ≤ x / y := Int.floor_le (x / y)
  have h2 : (⌊x / y⌋ : α) * y ≤ x := by
    have := (le_div_iff hy).mp h
    linarith
  simp only [mathMod]
  nlinarith

lemma mathMod_lt (x : α) {y : α} (hy : 0 < y) : mathMod x y < y := by
  have h : x / y < (⌊x / y⌋ : α) + 1 := Int.lt_floor_add_one (x / y)
  have h2 : x < ((⌊x / y⌋ : α) + 1) * y := (div_lt_iff hy).mp h
  simp only [mathMod]
  nlinarith

lemma mathMod_add_int_mul (x : α) {y : α} (hy : y ≠ 0) (k : ℤ) :
    mathMod (x + y * k) y = mathMod x y := by
  have hdiv : (x + y * k) / y = x / y + k := by
    field_simp
    ring
  simp only [mathMod, hdiv, Int.floor_add_int]
  push_cast
  ring

lemma mathMod_eq_self {x y : α} (hy : 0 < y) (h0 : 0 ≤ x) (h1 : x < y) :
    mathMod x y = x := by
  have hfloor : ⌊x / y⌋ = 0 := by
    rw [Int.floor_eq_zero_iff]
    constructor
    · exact div_nonneg h0 hy.le
    · exact (div_lt_one hy).mpr h1
  simp [mathMod, hfloor]

lemma mathMod_idem (x : α) {y : α} (hy : 0 < y) :
    mathMod (mathMod x y) y = mathMod x y :=
  mathMod_eq_self hy (mathMod_nonneg x hy) (mathMod_lt x hy)

lemma jsMod_eq_mathMod_of_nonneg {x y : α} (hx : 0 ≤ x) (hy : 0 < y) :
    jsMod x y = mathMod x y := by
  simp only [jsMod, mathMod, jsTrunc_of_nonneg (div_nonneg hx hy.le)]

lemma condAdd360_of_nonneg {x : α} (h : 0 ≤ x) : condAdd360 x = x :=
  if_neg (not_lt.mpr h)

lemma condAdd360_eq_mathMod {x : α} (h1 : (-360 : α) < x) (h2 : x < 360) :
    condAdd360 x = mathMod x 360 := by
  rcases lt_or_le x 0 with hx | hx
  · have hfloor : ⌊x / 360⌋ = -1 := by
      rw [Int.floor_eq_iff]
      constructor
      · push_cast
        rw [le_div_iff (by norm_num : (0:α) < 360)]
        linarith
      · push_cast
        rw [div_lt_iff (by norm_num : (0:α) < 360)]
        linarith
    rw [condAdd360, if_pos hx, mathMod, hfloor]
    push_cast
    ring
  · rw [condAdd360, if_neg (not_lt.mpr hx),
      mathMod_eq_self (by norm_num : (0:α) < 360) hx h2]

lemma ceil_eq_floor_add_one_of_fract_ne {x : α} (h : Int.fract x ≠ 0) :
    ⌈x⌉ = ⌊x⌋ + 1 := by
  have hlt : (⌊x⌋ : α) < x := by
    have hle := Int.floor_le x
    rcases lt_or_eq_of_le hle with hlt | heq
    · exact hlt
    · have : Int.fract x = 0 := by
        rw [Int.fract]
        linarith
      exact absurd this h
  have h1 : ⌊x⌋ < ⌈x⌉ := by
    have hcx : x ≤ (⌈x⌉ : α) := Int.le_ceil x
    exact_mod_cast lt_of_lt_of_le hlt hcx
  have h2 : ⌈x⌉ ≤ ⌊x⌋ + 1 := Int.ceil_le_floor_add_one x
  omega

lemma condAdd360_jsMod (x : α) : condAdd360 (jsMod x 360) = mathMod x 360 := by
  rcases le_or_lt 0 x with hx | hx
  · rw [jsMod_eq_mathMod_of_nonneg hx (by norm_num : (0:α) < 360),
      condAdd360_of_nonneg (mathMod_nonneg x (by norm_num : (0:α) < 360))]
  · have hq : x / 360 < 0 := div_neg_of_neg_of_pos hx (by norm_num)
    rw [jsMod, jsTrunc_of_neg hq]
    by_cases hf : Int.fract (x / 360) = 0
    · have hfl : (⌊x / 360⌋ : α) = x / 360 := by
        have := Int.fract_add_floor (x / 360)
        rw [hf] at this
        linarith
      have hceil : ⌈x / 360⌉ = ⌊x / 360⌋ := by
        calc ⌈x / 360⌉ = ⌈((⌊x / 360⌋ : ℤ) : α)⌉ := by rw [hfl]
          _ = ⌊x / 360⌋ := Int.ceil_intCast _
      rw [hceil]
      have hval : x - 360 * ((⌊x / 360⌋ : ℤ) : α) = mathMod x 360 := by
        rw [mathMod]
      rw [hval,
        condAdd360_of_nonneg (mathMod_nonneg x (by norm_num : (0:α) < 360))]
    · rw [ceil_eq_floor_add_one_of_fract_ne hf]
      have hmm : mathMod x 360 = 360 * Int.fract (x / 360) := by
        simp only [mathMod, Int.fract]
        ring
      have hfpos : 0 < Int.fract (x / 360) :=
        lt_of_le_of_ne (Int.fract_nonneg _) (Ne.symm hf)
      have hneg : x - 360 * ((⌊x / 360⌋ : α) + 1) < 0 := by
        have : x - 360 * (⌊x / 360⌋ : α) = 360 * Int.fract (x / 360) := by
          rw [← hmm]
          simp [mathMod]
        have hfl : Int.fract (x / 360) < 1 := Int.fract_lt_one _
        nlinarith
      have hcast : ((⌊x / 360⌋ + 1 : ℤ) : α) = (⌊x / 360⌋ : α) + 1 := by
        push_cast
        ring
      rw [hcast, condAdd360, if_pos hneg, hmm]
      simp only [Int.fract]
      ring

lemma jsMod_bounds (x : α) {y : α} (hy : 0 < y) :
    -y < jsMod x y ∧ jsMod x y < y := by
  rcases le_or_lt 0 x with hx | hx
  · rw [jsMod_eq_mathMod_of_nonneg hx hy]
    exact ⟨by linarith [mathMod_nonneg x hy], mathMod_lt x hy⟩
  · have hq : x / y < 0 := div_neg_of_neg_of_pos hx hy
    rw [jsMod, jsTrunc_of_neg hq]
    have h1 : x / y ≤ (⌈x / y⌉ : α) := Int.le_ceil _
    have h2 : (⌈x / y⌉ : α) < x / y + 1 := Int.ceil_lt_add_one _
    have hyx : y * (x / y) = x := by field_simp
    have h3 : y * ((⌈x / y⌉ : α)) < y * (x / y + 1) := mul_lt_mul_of_pos_left h2 hy
    have h4 : y * (x / y) ≤ y * ((⌈x / y⌉ : α)) := mul_le_mul_of_nonneg_left h1 hy.le
    have h5 : y * (x / y + 1) = y * (x / y) + y := by ring
    constructor
    · linarith
    · linarith

lemma mathMod_jsMod (x : α) {y : α} (hy : 0 < y) :
    mathMod (jsMod x y) y = mathMod x y := by
  have h : jsMod x y = x + y * ((-(jsTrunc (x / y)) : ℤ) : α) := by
    rw [jsMod]
    push_cast
    ring
  rw [h, mathMod_add_int_mul x (ne_of_gt hy) (-(jsTrunc (x / y)))]

lemma addMod360_eq_mathMod {x : α} (h : (-360 : α) ≤ x) :
    addMod360 x = mathMod x 360 := by
  rw [addMod360, jsMod_eq_mathMod_of_nonneg (by linarith) (by norm_num : (0:α) < 360)]
  have h1 : x + 360 = x + 360 * ((1 : ℤ) : α) := by
    push_cast
    ring
  rw [h1, mathMod_add_int_mul x (by norm_num) 1]

lemma normalize360_eq_mathMod (x : α) : normalize360 x = mathMod x 360 := by
  have hb := jsMod_bounds x (by norm_num : (0:α) < 360)
  rw [normalize360, jsMod_eq_mathMod_of_nonneg (by linarith [hb.1]) (by norm_num : (0:α) < 360)]
  have h1 : jsMod x 360 + 360 = jsMod x 360 + 360 * ((1 : ℤ) : α) := by
    push_cast
    ring
  rw [h1, mathMod_add_int_mul _ (by norm_num) 1, mathMod_jsMod x (by norm_num : (0:α) < 360)]

end CoreArith

section Formatting

/-- Digit padding used when rendering the two decimal places of `toFixed(2)`. -/
def pad2 (n : ℕ) : String :=
  if n < 10 then "0" ++ toString n else toString n

/-- Exact-rational model of JavaScript `Number.prototype.toFixed(2)` on a
non-negative value: round to the nearest hundredth (half up) and render with
exactly two decimal places. -/
def fixed2str (q : ℚ) : String :=
  let n : ℕ := (⌊q * 100 + 1 / 2⌋).toNat
  toString (n / 100) ++ "." ++ pad2 (n % 100)

/-- The rational value denoted by the string `fixed2str q`, used for the
round-trip property. -/
def fixed2val (q : ℚ) : ℚ :=
  ((⌊q * 100 + 1 / 2⌋ : ℤ) : ℚ) / 100

/-- The apostrophe character separating minutes from seconds in the DMS
rendering. -/
def minuteMark : String := String.singleton (Char.ofNat 39)

/-- The double-quote character terminating the DMS rendering. -/
def secondMark : String := String.singleton (Char.ofNat 34)

/-- The degree sign used by `part_000`. -/
def degreeMark : String := "°"

/-- JavaScript `signs[index] || null`: a list lookup at an integer index that
yields `none` when the index is out of range (JS `undefined`, coerced to
`null`). -/
def jsAt (l : List String) (i : ℤ) : Option String :=
  if h : 0 ≤ i ∧ i.toNat < l.length then some (l.get ⟨i.toNat, h.right⟩) else none

end Formatting

namespace Part0

/-- The twelve zodiac sign names of `src/unnamed/part_000` (Hebrew). -/
def signs : List String :=
  ["טלה", "שור", "תאומים", "סרטן", "אריה", "בתולה",
   "מאזניים", "עקרב", "קשת", "גדי", "דלי", "דגים"]

/-- `getZodiacSign` of `part_000` (lines 15-26): `index = Math.floor(longitude
/ 30)`, then `signs[index] || null`.  The memo cache is omitted: it is
write-once and pure, so it does not change the function's value. -/
def getZodiacSign (longitude : ℚ) : Option String :=
  jsAt signs ⌊longitude / 30⌋

/-- The raw seconds value inside `formatDMS` of `part_000` (line 36):
`(((x % 1) * 60) % 1) * 60` before `toFixed(2)`. -/
def secondsRaw (x : ℚ) : ℚ :=
  jsMod (jsMod x 1 * 60) 1 * 60

/-- The minutes field of `formatDMS` of `part_000` (line 35):
`Math.floor((x % 1) * 60)`. -/
def minutesVal (x : ℚ) : ℤ :=
  ⌊jsMod x 1 * 60⌋

/-- `formatDMS` of `part_000` (lines 33-38). -/
def formatDMS (x : ℚ) : String :=
  toString ⌊x⌋ ++ degreeMark ++ toString (minutesVal x) ++ minuteMark ++
    fixed2str (secondsRaw x) ++ secondMark

/-- `isADayChart` of `part_000` (lines 46-49): a naive linear comparison of the
Sun's longitude against Ascendant and Descendant, with no wrap-around
handling. -/
def isADayChart (sunLongitude ascendantLongitude : ℚ) : Bool :=
  decide (ascendantLongitude ≤ sunLongitude ∧
    sunLongitude ≤ jsMod (ascendantLongitude + 180) 360)

/-- The Part-of-Fortune computation of `part_000` (lines 186-195): day chart →
`(AC + Moon − Sun) % 360`, night chart → `(AC − Moon + Sun) % 360`, then one
conditional `+ 360` fix-up. -/
def fortunePoint (ascendant moonLongitude sunLongitude : ℚ) : ℚ :=
  let f := if isADayChart sunLongitude ascendant
    then jsMod (ascendant + moonLongitude - sunLongitude) 360
    else jsMod (ascendant - moonLongitude + sunLongitude) 360
  condAdd360 f

end Part0

namespace Part2

/-- The twelve zodiac sign names of `src/unnamed/part_002` (English). -/
def signs : List String :=
  ["Aries", "Taurus", "Gemini", "Cancer", "Leo", "Virgo",
   "Libra", "Scorpio", "Sagittarius", "Capricorn", "Aquarius", "Pisces"]

/-- JavaScript `%` on integer values (sign of the dividend), used for the
`% 12` in `part_002`'s `getZodiacSign`. -/
def jsIntRem (a b : ℤ) : ℤ :=
  if 0 ≤ a then a % b else -((-a) % b)

/-- `getZodiacSign` of `part_002` (lines 13-24): `index = Math.floor(longitude
/ 30) % 12`, then `signs[index] || null`.  The memo cache is omitted as in
`Part0`. -/
def getZodiacSign (longitude : ℚ) : Option String :=
  jsAt signs (jsIntRem ⌊longitude / 30⌋ 12)

/-- `isDayChart` of `part_002` (lines 39-42): the naive comparison of
`part_000` plus a shifted-by-360 disjunct intended to handle wrap-around. -/
def isDayChart (sunLongitude ascendantLongitude : ℚ) : Bool :=
  let descendantLongitude := jsMod (ascendantLongitude + 180) 360
  decide ((ascendantLongitude ≤ sunLongitude ∧ sunLongitude ≤ descendantLongitude) ∨
    (ascendantLongitude ≤ sunLongitude + 360 ∧
      sunLongitude + 360 ≤ descendantLongitude + 360))

/-- The Part-of-Fortune computation of `part_002` (lines 135-142): the night
branch uses `(AC + Moon − Sun + 360) % 360` and the day branch uses
`(AC − Moon + Sun + 360) % 360`. -/
def fortunePoint (ascendant sunLongitude moonLongitude : ℚ) : ℚ :=
  if !(isDayChart sunLongitude ascendant) then
    jsMod (ascendant + moonLongitude - sunLongitude + 360) 360
  else
    jsMod (ascendant - moonLongitude + sunLongitude + 360) 360

end Part2

/-- The arc test the spec uses to define "above the horizon" (§4.5): the Sun's
longitude lies on the arc from the Ascendant to the Descendant going
counterclockwise, i.e. the Sun is at most 180° past the Ascendant mod 360. -/
def onDayArc (sunLongitude ascendantLongitude : ℚ) : Prop :=
  mathMod (sunLongitude - ascendantLongitude) 360 ≤ 180

instance (s a : ℚ) : Decidable (onDayArc s a) := by
  unfold onDayArc
  infer_instance

section Vertex

/-- The JavaScript `Math` trigonometric collaborators used by `computeVertex`,
passed explicitly so the deriver stays a pure function of its inputs. -/
structure TrigOps (α : Type) where
  pi : α
  sin : α → α
  cos : α → α
  tan : α → α
  atan2 : α → α → α

/-- The external `sweph` calls that `computeVertex` of `part_000` performs:
obliquity of the ecliptic in degrees (`calc_ut` with `SE_ECL_NUT`), Greenwich
sidereal time in hours (`sidtime`), and delta-T (`deltat`). -/
structure SwephLike (α : Type) where
  obliquityDeg : α → α
  sidtime : α → α
  deltat : α → α

/-- The RAMC computation inside `computeVertex` of `part_000` (lines 64-70):
`GST = sidtime(jd + deltat(jd))`, `LST = (GST + longitude / 15) % 24`,
`RAMC = (LST * 15) % 360`. -/
def ramcOf (sw : SwephLike ℚ) (julianDay longitude : ℚ) : ℚ :=
  let gst := sw.sidtime (julianDay + sw.deltat julianDay)
  let lst := jsMod (gst + longitude / 15) 24
  jsMod (lst * 15) 360

/-- `computeVertex` of `part_000` (lines 58-94), with the external `sweph` and
`Math` collaborators supplied as records.  The conditional `+ 360` fix-up of
lines 89-91 is `condAdd360`; everything else is a line-by-line transcription. -/
def computeVertex (m : TrigOps ℚ) (sw : SwephLike ℚ)
    (julianDay latitude longitude : ℚ) : ℚ :=
  let obliquity := sw.obliquityDeg julianDay * (m.pi / 180)
  let ramc := ramcOf sw julianDay longitude
  let ramcRad := ramc * (m.pi / 180)
  let latRad := latitude * (m.pi / 180)
  let cotL := 1 / m.tan latRad
  let vxNumerator := m.cos ramcRad
  let vxDenominator := m.sin obliquity * cotL - m.cos obliquity * m.sin ramcRad
  let vertexLongitude := m.atan2 vxNumerator vxDenominator * (180 / m.pi)
  jsMod (condAdd360 vertexLongitude + 180) 360

/-- Modelled from the spec (§4.4, refinement comparator): given RAMC, the
obliquity and the latitude (the latter two in radians), the Vertex is
`atan2(cos RAMC, sin(obliquity)·cotφ − cos(obliquity)·sin RAMC)` converted to
degrees, normalized to `[0, 360)`, then rotated by `+180` and reduced
`mod 360`. -/
def vertexSpecFormula (m : TrigOps ℚ) (ramcDeg obliquityRad latRad : ℚ) : ℚ :=
  let cotL := 1 / m.tan latRad
  let ramcRad := ramcDeg * (m.pi / 180)
  let nume := m.cos ramcRad
  let deno := m.sin obliquityRad * cotL - m.cos obliquityRad * m.sin ramcRad
  let raw := m.atan2 nume deno * (180 / m.pi)
  mathMod (mathMod raw 360 + 180) 360

lemma vertex_pipeline {raw : ℚ} (h1 : (-360 : ℚ) < raw) (h2 : raw < 360) :
    jsMod (condAdd360 raw + 180) 360 = mathMod (mathMod raw 360 + 180) 360 ∧
    0 ≤ jsMod (condAdd360 raw + 180) 360 ∧
    jsMod (condAdd360 raw + 180) 360 < 360 := by
  have hca : condAdd360 raw = mathMod raw 360 := condAdd360_eq_mathMod h1 h2
  have hnn : (0 : ℚ) ≤ mathMod raw 360 + 180 := by
    linarith [mathMod_nonneg raw (by norm_num : (0:ℚ) < 360)]
  rw [hca, jsMod_eq_mathMod_of_nonneg hnn (by norm_num : (0:ℚ) < 360)]
  exact ⟨rfl, mathMod_nonneg _ (by norm_num : (0:ℚ) < 360),
    mathMod_lt _ (by norm_num : (0:ℚ) < 360)⟩

end Vertex

section Assembly

/-- The uniform output record built for every celestial point: the DMS string
within the sign, the full DMS string, the decimal longitude and the zodiac
sign. -/
structure PointRecord where
  apparentLongitudeDms30 : String
  apparentLongitudeDms360 : String
  apparentLongitudeDd : ℚ
  zodiacSign : Option String
  deriving DecidableEq

namespace Part0

/-- The result object returned by `sweph.calc_ut` as `part_000`'s
`processSwephResult` (lines 102-113) inspects it: a status flag and the
longitude `data[0]`. -/
structure CalcResult where
  flag : ℤ
  data0 : ℚ
  deriving DecidableEq

/-- The record built by `processSwephResult` of `part_000` for a longitude. -/
def mkRecord (longitude : ℚ) : PointRecord :=
  { apparentLongitudeDms30 := formatDMS (jsMod longitude 30)
    apparentLongitudeDms360 := formatDMS longitude
    apparentLongitudeDd := longitude
    zodiacSign := getZodiacSign longitude }

/-- `processSwephResult` of `part_000` (lines 102-113): `null` when the result
is missing or its flag is neither 0 nor 2, otherwise one named record.  A
`none` input models a `calc_ut` call that threw (caught and logged by the
caller). -/
def processSwephResult (result : Option CalcResult) (pointName : String) :
    Option (String × PointRecord) :=
  match result with
  | none => none
  | some r => if r.flag ≠ 0 ∧ r.flag ≠ 2 then none else some (pointName, mkRecord r.data0)

/-- The point loop of `computeAdditionalPoints` in `part_000` (lines 151-159):
each point's `calc_ut` result is processed and merged only when processing
succeeded; failures are logged and skipped, and the loop itself never fails. -/
def assemblePoints (calcUt : String → Option CalcResult) :
    List String → List (String × PointRecord)
  | [] => []
  | k :: rest =>
    match processSwephResult (calcUt k) k with
    | none => assemblePoints calcUt rest
    | some p => p :: assemblePoints calcUt rest

end Part0

namespace Part2

/-- The result object returned by `sweph.calc_ut` as `part_002`'s
`processSwephResult` (lines 47-67) inspects it: an error flag and the
longitude `data[0]`. -/
structure CalcResult where
  error : Bool
  data0 : ℚ
  deriving DecidableEq

/-- `formatDMS` of `part_002` (lines 29-34); identical to `part_000`'s except
for the mojibake degree sign in the literal. -/
def formatDMS (x : ℚ) : String :=
  toString ⌊x⌋ ++ "Â°" ++ toString (Part0.minutesVal x) ++ minuteMark ++
    fixed2str (Part0.secondsRaw x) ++ secondMark

/-- The special-case adjustment `part_002` applies to the true node (lines
54-57): despite the comment announcing a one-degree subtraction, the code is
`(longitude + 360) % 360`. -/
def nodeAdjust (pointName : String) (longitude : ℚ) : ℚ :=
  if pointName = "node" then jsMod (longitude + 360) 360 else longitude

/-- The record built by `processSwephResult` of `part_002` for a longitude. -/
def mkRecord (longitude : ℚ) : PointRecord :=
  { apparentLongitudeDms30 := formatDMS (jsMod longitude 30)
    apparentLongitudeDms360 := formatDMS longitude
    apparentLongitudeDd := longitude
    zodiacSign := getZodiacSign longitude }

/-- `processSwephResult` of `part_002` (lines 47-67): `null` (after a console
log) when the result is missing or carries an error, otherwise one named
record built from the node-adjusted longitude. -/
def processSwephResult (result : Option CalcResult) (pointName : String) :
    Option (String × PointRecord) :=
  match result with
  | none => none
  | some r =>
    if r.error then none
    else some (pointName, mkRecord (nodeAdjust pointName r.data0))

end Part2

end Assembly

/-- C1 (amended): in `part_000` the Part-of-Fortune longitude equals
`(AC + Moon − Sun) mod 360` whenever the code classifies the chart as a day
chart and `(AC + Sun − Moon) mod 360` otherwise, and at AC = 100, Sun = 150,
Moon = 200 (a day chart) the result is 150.  (`part_002` swaps the two
branches; see the counterexample.) -/
theorem c1_fortune_part0_convention :
    (∀ ascendant moonLongitude sunLongitude : ℚ,
      Part0.fortunePoint ascendant moonLongitude sunLongitude =
        if Part0.isADayChart sunLongitude ascendant
        then mathMod (ascendant + moonLongitude - sunLongitude) 360
        else mathMod (ascendant + sunLongitude - moonLongitude) 360) ∧
    Part0.isADayChart 150 100 = true ∧
    Part0.fortunePoint 100 200 150 = 150 := by
  refine ⟨fun a m s => ?_, ?_, ?_⟩
  · rw [Part0.fortunePoint]
    cases hd : Part0.isADayChart s a with
    | false =>
      simp only [hd, Bool.false_eq_true, if_false]
      rw [condAdd360_jsMod]
      congr 1
      ring
    | true =>
      simp only [hd, if_true]
      rw [condAdd360_jsMod]
  · norm_num [Part0.isADayChart, jsMod, jsTrunc]
  · norm_num [Part0.fortunePoint, Part0.isADayChart, jsMod, jsTrunc, condAdd360]

/-- C1 (counterexample): at the claim's own instance AC = 100, Sun = 150,
Moon = 200, `part_002` classifies the chart as a day chart but computes
`(AC − Moon + Sun + 360) mod 360 = 50`, not the claimed 150. -/
theorem c1_fortune_part2_counterexample :
    Part2.isDayChart 150 100 = true ∧
    Part2.fortunePoint 100 150 200 = 50 ∧
    Part2.fortunePoint 100 150 200 ≠ 150 := by
  refine ⟨?_, ?_, ?_⟩ <;>
    norm_num [Part2.fortunePoint, Part2.isDayChart, jsMod, jsTrunc]

/-- C2 (code bug): the claimed characterization — day chart iff the Sun lies
on the counterclockwise arc from Ascendant to Descendant — fails in both
implementations.  `part_000` returns night for AC = 350°, Sun = 5° although
the Sun is on the arc (the claim's own instance), and `part_002` returns day
for AC = 100°, Sun = 50° although the Sun is not on the arc. -/
theorem c2_day_chart_divergence :
    (Part2.isDayChart 5 350 = true ∧ onDayArc 5 350) ∧
    Part0.isADayChart 5 350 = false ∧
    (Part2.isDayChart 50 100 = true ∧ ¬ onDayArc 50 100) := by
  refine ⟨⟨?_, ?_⟩, ?_, ?_, ?_⟩ <;>
    norm_num [Part2.isDayChart, Part0.isADayChart, onDayArc, mathMod, jsMod,
      jsTrunc]

lemma atan2_deg_bounds (m : TrigOps ℚ) (hpi : 0 < m.pi)
    (hatan : ∀ y x : ℚ, -m.pi < m.atan2 y x ∧ m.atan2 y x ≤ m.pi) (y x : ℚ) :
    (-360 : ℚ) < m.atan2 y x * (180 / m.pi) ∧ m.atan2 y x * (180 / m.pi) < 360 := by
  obtain ⟨h1, h2⟩ := hatan y x
  have hpos : (0 : ℚ) < 180 / m.pi := div_pos (by norm_num) hpi
  have hpine : m.pi ≠ 0 := ne_of_gt hpi
  constructor
  · have hm := mul_lt_mul_of_pos_right h1 hpos
    have he : -m.pi * (180 / m.pi) = -180 := by
      field_simp
      ring
    linarith
  · have hm := mul_le_mul_of_nonneg_right h2 hpos.le
    have he : m.pi * (180 / m.pi) = 180 := by
      field_simp
    linarith

/-- C3: for any trigonometric collaborator whose `atan2` lands in `(−π, π]`
and any inputs with the latitude away from 0° and ±90°, `computeVertex` of
`part_000` returns exactly the spec's Vertex formula — `atan2(cos RAMC,
sin(obliquity)·cotφ − cos(obliquity)·sin RAMC)` in degrees, normalized to
`[0,360)`, plus 180, reduced mod 360 — and the result lies in `[0, 360)`. -/
theorem c3_vertex_formula (m : TrigOps ℚ) (sw : SwephLike ℚ)
    (hpi : 0 < m.pi)
    (hatan : ∀ y x : ℚ, -m.pi < m.atan2 y x ∧ m.atan2 y x ≤ m.pi)
    (julianDay latitude longitude : ℚ)
    (hlat0 : latitude ≠ 0) (hlat90 : latitude ≠ 90) (hlat90n : latitude ≠ -90) :
    computeVertex m sw julianDay latitude longitude =
      vertexSpecFormula m (ramcOf sw julianDay longitude)
        (sw.obliquityDeg julianDay * (m.pi / 180)) (latitude * (m.pi / 180)) ∧
    0 ≤ computeVertex m sw julianDay latitude longitude ∧
    computeVertex m sw julianDay latitude longitude < 360 := by
  simp only [computeVertex, vertexSpecFormula]
  exact vertex_pipeline (atan2_deg_bounds m hpi hatan _ _).1
    (atan2_deg_bounds m hpi hatan _ _).2

/-- Concrete trigonometric stand-in used to instantiate `c3_vertex_formula`. -/
def opsW : TrigOps ℚ := ⟨3, fun _ => 0, fun _ => 0, fun _ => 1, fun _ _ => 1⟩

/-- Concrete ephemeris stand-in used to instantiate `c3_vertex_formula`. -/
def swW : SwephLike ℚ := ⟨fun _ => 23, fun _ => 7, fun _ => 0⟩

/-- C3 (witness): `c3_vertex_formula` applied at a concrete collaborator and
concrete inputs. -/
theorem c3_vertex_formula_witness :
    computeVertex opsW swW 2451545 45 34 =
      vertexSpecFormula opsW (ramcOf swW 2451545 34)
        (swW.obliquityDeg 2451545 * (opsW.pi / 180)) (45 * (opsW.pi / 180)) ∧
    0 ≤ computeVertex opsW swW 2451545 45 34 ∧
    computeVertex opsW swW 2451545 45 34 < 360 :=
  c3_vertex_formula opsW swW (by norm_num [opsW])
    (fun y x => by constructor <;> norm_num [opsW]) 2451545 45 34
    (by norm_num) (by norm_num) (by norm_num)

/-- C4 (code bug): the assembly loop of `part_000` is not total.  With a
single requested point whose `calc_ut` result carries the error flag 1, the
loop returns an empty mapping — the input entry yields no output entry, and
the return type offers no failure channel that could name the offending
point. -/
theorem c4_assembly_silent_drop :
    Part0.assemblePoints (fun _ => some ⟨1, 123⟩) ["sun"] = [] ∧
    Part0.processSwephResult (some ⟨1, 123⟩) "sun" = none ∧
    Part0.processSwephResult (some ⟨0, 123⟩) "sun" =
      some ("sun", Part0.mkRecord 123) :=
  ⟨rfl, rfl, rfl⟩

/-- Concrete all-zero trigonometric stand-in used to evaluate `computeVertex`
at the degenerate latitudes (its `tan` returns 0 at 0, like `Math.tan`). -/
def opsZ : TrigOps ℚ := ⟨3, fun _ => 0, fun _ => 0, fun _ => 0, fun _ _ => 0⟩

/-- Concrete ephemeris stand-in used to evaluate `computeVertex` at the
degenerate latitudes. -/
def swZ : SwephLike ℚ := ⟨fun _ => 23, fun _ => 0, fun _ => 0⟩

/-- C5 (code bug): `computeVertex` of `part_000` has no degenerate-geometry
policy.  At latitude 0° (and 90°) it divides by `tan(0) = 0` and still
returns an ordinary normalized longitude — its return type is a plain number
with no failure channel, so no `DegenerateGeometry` error (and no clamp) can
be surfaced. -/
theorem c5_vertex_degenerate_latitude :
    computeVertex opsZ swZ 2451545 0 0 = 180 ∧
    computeVertex opsZ swZ 2451545 90 0 = 180 := by
  constructor <;>
    norm_num [computeVertex, ramcOf, opsZ, swZ, jsMod, jsTrunc, condAdd360]

/-- C6 (counterexample): the code's inline normalizations are not total.  The
conditional `+ 360` fix-up of `part_000` maps −400 to −40, and the
`(x + 360) % 360` idiom of `part_002` maps −500 to −140; both results are
outside `[0, 360)`. -/
theorem c6_normalize_counterexample :
    condAdd360 (-400 : ℚ) = -40 ∧ ¬ (0 ≤ condAdd360 (-400 : ℚ)) ∧
    addMod360 (-500 : ℚ) = -140 ∧ ¬ (0 ≤ addMod360 (-500 : ℚ)) := by
  refine ⟨?_, ?_, ?_, ?_⟩ <;> norm_num [condAdd360, addMod360, jsMod, jsTrunc]

/-- C6 (amended): the spec's `normalize360(x) = ((x % 360) + 360) % 360`
satisfies all three claimed properties for every `x` — range `[0, 360)`,
periodicity with period 360, and idempotence — and the code's inline
normalizations agree with it exactly on restricted domains: the conditional
`+ 360` fix-up for `x ∈ (−360, 360)` and the `(x + 360) % 360` idiom for
`x ≥ −360`. -/
theorem c6_normalize_properties {α : Type} [LinearOrderedField α]
    [FloorRing α] (x : α) :
    (0 ≤ normalize360 x ∧ normalize360 x < 360) ∧
    (∀ k : ℤ, normalize360 (x + 360 * k) = normalize360 x) ∧
    normalize360 (normalize360 x) = normalize360 x ∧
    ((-360 : α) < x → x < 360 → condAdd360 x = normalize360 x) ∧
    ((-360 : α) ≤ x → addMod360 x = normalize360 x) := by
  have h360 : (0 : α) < 360 := by norm_num
  refine ⟨⟨?_, ?_⟩, fun k => ?_, ?_, fun h1 h2 => ?_, fun h => ?_⟩
  · rw [normalize360_eq_mathMod]
    exact mathMod_nonneg x h360
  · rw [normalize360_eq_mathMod]
    exact mathMod_lt x h360
  · rw [normalize360_eq_mathMod, normalize360_eq_mathMod,
      mathMod_add_int_mul x (ne_of_gt h360) k]
  · rw [normalize360_eq_mathMod, normalize360_eq_mathMod,
      mathMod_idem x h360]
  · rw [normalize360_eq_mathMod, condAdd360_eq_mathMod h1 h2]
  · rw [normalize360_eq_mathMod, addMod360_eq_mathMod h]

/-- C6 (witness): `c6_normalize_properties` instantiated at `x = −100` over
`ℚ`, with the domain hypotheses of the restricted agreements discharged. -/
theorem c6_normalize_properties_witness :
    (0 ≤ normalize360 (-100 : ℚ) ∧ normalize360 (-100 : ℚ) < 360) ∧
    normalize360 ((-100 : ℚ) + 360 * (2 : ℤ)) = normalize360 (-100 : ℚ) ∧
    normalize360 (normalize360 (-100 : ℚ)) = normalize360 (-100 : ℚ) ∧
    condAdd360 (-100 : ℚ) = normalize360 (-100 : ℚ) ∧
    addMod360 (-100 : ℚ) = normalize360 (-100 : ℚ) :=
  ⟨(c6_normalize_properties (-100 : ℚ)).1,
    (c6_normalize_properties (-100 : ℚ)).2.1 2,
    (c6_normalize_properties (-100 : ℚ)).2.2.1,
    (c6_normalize_properties (-100 : ℚ)).2.2.2.1 (by norm_num) (by norm_num),
    (c6_normalize_properties (-100 : ℚ)).2.2.2.2 (by norm_num)⟩

lemma jsAt_isSome {l : List String} {i : ℤ} (h0 : 0 ≤ i)
    (h1 : i.toNat < l.length) : (jsAt l i).isSome = true := by
  rw [jsAt, dif_pos (And.intro h0 h1)]
  rfl

lemma jsAt_natCast (l : List String) (n : ℕ) : jsAt l (n : ℤ) = l.get? n := by
  by_cases h : n < l.length
  · rw [jsAt, dif_pos (And.intro (Int.natCast_nonneg n) (by simpa using h))]
    simp [List.get?_eq_get h]
  · rw [jsAt, dif_neg]
    · symm
      rw [List.get?_eq_none]
      omega
    · simp
      omega

lemma floor_div30_eq {x : ℚ} {k : ℕ} (h1 : (30 * k : ℚ) ≤ x)
    (h2 : x < 30 * ((k : ℚ) + 1)) : ⌊x / 30⌋ = k := by
  rw [Int.floor_eq_iff]
  constructor
  · push_cast
    rw [le_div_iff (by norm_num : (0:ℚ) < 30)]
    linarith
  · push_cast
    rw [div_lt_iff (by norm_num : (0:ℚ) < 30)]
    linarith

/-- C7: for every longitude in `[0, 360)` both `getZodiacSign` variants return
a sign (never `null`), and on each half-open interval `[30k, 30(k+1))` the
returned sign is the list entry at index `k = ⌊x/30⌋`, so the classifier is a
12-way step function. -/
theorem c7_zodiac_sign :
    (∀ x : ℚ, 0 ≤ x → x < 360 →
      (Part0.getZodiacSign x).isSome = true ∧
      (Part2.getZodiacSign x).isSome = true) ∧
    (∀ k : ℕ, k < 12 → ∀ x : ℚ, (30 * k : ℚ) ≤ x → x < 30 * ((k : ℚ) + 1) →
      Part0.getZodiacSign x = Part0.signs.get? k ∧
      Part2.getZodiacSign x = Part2.signs.get? k) := by
  have hlen0 : Part0.signs.length = 12 := rfl
  have hlen2 : Part2.signs.length = 12 := rfl
  constructor
  · intro x hx0 hx1
    have h0 : (0:ℤ) ≤ ⌊x / 30⌋ := Int.floor_nonneg.mpr (by positivity)
    have h1 : ⌊x / 30⌋ < 12 := by
      apply Int.floor_lt.mpr
      push_cast
      rw [div_lt_iff (by norm_num : (0:ℚ) < 30)]
      linarith
    have hrem : Part2.jsIntRem ⌊x / 30⌋ 12 = ⌊x / 30⌋ := by
      rw [Part2.jsIntRem, if_pos h0]
      exact Int.emod_eq_of_lt h0 h1
    constructor
    · exact jsAt_isSome h0 (by rw [hlen0]; omega)
    · rw [Part2.getZodiacSign, hrem]
      exact jsAt_isSome h0 (by rw [hlen2]; omega)
  · intro k hk x hx0 hx1
    have hf : ⌊x / 30⌋ = k := floor_div30_eq hx0 hx1
    have hrem : Part2.jsIntRem (k : ℤ) 12 = k := by
      rw [Part2.jsIntRem, if_pos (Int.natCast_nonneg k)]
      exact Int.emod_eq_of_lt (Int.natCast_nonneg k) (by exact_mod_cast hk)
    constructor
    · rw [Part0.getZodiacSign, hf, jsAt_natCast]
    · rw [Part2.getZodiacSign, hf, hrem, jsAt_natCast]

/-- C7 (witness): `c7_zodiac_sign` applied at longitude 45 and interval
index 1. -/
theorem c7_zodiac_sign_witness :
    (Part0.getZodiacSign 45).isSome = true ∧
    Part0.getZodiacSign 45 = Part0.signs.get? 1 ∧
    Part2.getZodiacSign 45 = Part2.signs.get? 1 :=
  ⟨(c7_zodiac_sign.1 45 (by norm_num) (by norm_num)).1,
   (c7_zodiac_sign.2 1 (by norm_num) 45 (by norm_num) (by norm_num)).1,
   (c7_zodiac_sign.2 1 (by norm_num) 45 (by norm_num) (by norm_num)).2⟩

/-- C8: there is an input (10°59′59.999″ as a decimal degree) whose seconds
field rounds up to exactly "60.00", and for every input whose seconds field
renders as "60.00" the formatted string keeps the independent floor-computed
minutes and degrees fields — the overflow is never carried. -/
theorem c8_seconds_sixty_no_carry :
    Part0.formatDMS (39599999/3600000) =
      "10" ++ degreeMark ++ "59" ++ minuteMark ++ "60.00" ++ secondMark ∧
    ∀ x : ℚ, fixed2str (Part0.secondsRaw x) = "60.00" →
      Part0.formatDMS x = toString ⌊x⌋ ++ degreeMark ++
        toString (Part0.minutesVal x) ++ minuteMark ++ "60.00" ++ secondMark := by
  constructor
  · have h1 : (⌊(39599999:ℚ)/3600000⌋ : ℤ) = 10 := by norm_num
    have h2 : Part0.minutesVal (39599999/3600000) = 59 := by
      norm_num [Part0.minutesVal, jsMod, jsTrunc]
    have h3 : Part0.secondsRaw (39599999/3600000) = 59999/1000 := by
      norm_num [Part0.secondsRaw, jsMod, jsTrunc]
    rw [Part0.formatDMS, h1, h2, h3]
    have h4 : (⌊(59999:ℚ)/1000 * 100 + 1/2⌋ : ℤ) = 6000 := by norm_num
    rw [fixed2str, h4]
    rfl
  · intro x h
    rw [Part0.formatDMS, h]

/-- C8 (witness): `c8_seconds_sixty_no_carry` applied at the boundary input,
with the "60.00" hypothesis discharged by evaluation. -/
theorem c8_seconds_sixty_no_carry_witness :
    Part0.formatDMS (39599999/3600000) =
      toString ⌊(39599999/3600000 : ℚ)⌋ ++ degreeMark ++
        toString (Part0.minutesVal (39599999/3600000)) ++ minuteMark ++
        "60.00" ++ secondMark :=
  c8_seconds_sixty_no_carry.2 (39599999/3600000) (by
    have h3 : Part0.secondsRaw (39599999/3600000) = 59999/1000 := by
      norm_num [Part0.secondsRaw, jsMod, jsTrunc]
    have h4 : (⌊(59999:ℚ)/1000 * 100 + 1/2⌋ : ℤ) = 6000 := by norm_num
    rw [h3, fixed2str, h4]
    rfl)

/-- The decimal degrees recovered from the degrees, minutes and seconds
components of `Part0.formatDMS x` via `d + m/60 + s/3600`, where the seconds
component carries its rendered two-decimal value. -/
def dmsParseBack (x : ℚ) : ℚ :=
  (⌊x⌋ : ℚ) + (Part0.minutesVal x : ℚ) / 60 + fixed2val (Part0.secondsRaw x) / 3600

/-- C9: for every input in the caller's expected range `[0, 360)`, parsing the
DMS components of `formatDMS` back to decimal degrees reproduces the input to
within `1/360000` of a degree (the rounding of the seconds to two decimals
contributes at most `(1/200)/3600 = 1/720000`). -/
theorem c9_dms_roundtrip (x : ℚ) (h0 : 0 ≤ x) (h1 : x < 360) :
    |dmsParseBack x - x| ≤ 1 / 360000 := by
  have hj1 : jsMod x 1 = Int.fract x := by
    rw [jsMod_eq_mathMod_of_nonneg h0 one_pos, mathMod, Int.fract, div_one,
      one_mul]
  have hf0 : (0:ℚ) ≤ Int.fract x := Int.fract_nonneg x
  have hj2 : jsMod (Int.fract x * 60) 1 = Int.fract (Int.fract x * 60) := by
    rw [jsMod_eq_mathMod_of_nonneg (by positivity) one_pos, mathMod, div_one,
      one_mul]
    exact Int.self_sub_floor (Int.fract x * 60)
  rw [dmsParseBack, fixed2val, Part0.secondsRaw, Part0.minutesVal, hj1, hj2]
  set f := Int.fract x with hfdef
  set g := Int.fract (f * 60) with hgdef
  set N := ⌊g * 60 * 100 + 1/2⌋ with hNdef
  have hx : (⌊x⌋ : ℚ) + f = x := Int.floor_add_fract x
  have hfg : (⌊f * 60⌋ : ℚ) + g = f * 60 := Int.floor_add_fract (f * 60)
  have hN1 : (N : ℚ) ≤ g * 60 * 100 + 1/2 := Int.floor_le _
  have hN2 : g * 60 * 100 + 1/2 < (N : ℚ) + 1 := Int.lt_floor_add_one _
  rw [abs_le]
  constructor
  · linarith
  · linarith

/-- C9 (witness): `c9_dms_roundtrip` applied at 45.25°. -/
theorem c9_dms_roundtrip_witness :
    |dmsParseBack (181/4) - 181/4| ≤ 1 / 360000 :=
  c9_dms_roundtrip (181/4) (by norm_num) (by norm_num)

/-- C10: the special-case adjustment `(longitude + 360) % 360` that `part_002`
applies to the true node is the identity on `[0, 360)`, so for every ephemeris
output in that range the node's record is built exactly as for every other
point name (only the key differs); no one-degree subtraction happens. -/
theorem c10_node_adjust_identity (l : ℚ) (h0 : 0 ≤ l) (h1 : l < 360) :
    Part2.nodeAdjust "node" l = l ∧
    ∀ (name : String) (r : Part2.CalcResult), r.data0 = l →
      Part2.processSwephResult (some r) "node" =
        (Part2.processSwephResult (some r) name).map
          (fun p => (("node" : String), p.2)) := by
  have hadj : jsMod (l + 360) 360 = l := by
    rw [jsMod_eq_mathMod_of_nonneg (by linarith) (by norm_num : (0:ℚ) < 360)]
    have heq : l + 360 = l + 360 * ((1:ℤ):ℚ) := by
      push_cast
      ring
    rw [heq, mathMod_add_int_mul l (by norm_num) 1,
      mathMod_eq_self (by norm_num : (0:ℚ) < 360) h0 h1]
  have hnode : Part2.nodeAdjust "node" l = l := by
    rw [Part2.nodeAdjust, if_pos rfl, hadj]
  refine ⟨hnode, fun name r hr => ?_⟩
  by_cases he : r.error
  · simp [Part2.processSwephResult, he]
  · have hadjname : Part2.nodeAdjust name r.data0 = r.data0 := by
      rw [Part2.nodeAdjust]
      by_cases hn : name = "node"
      · rw [if_pos hn, hr, hadj]
      · rw [if_neg hn]
    simp only [Part2.processSwephResult, he, if_false, Bool.false_eq_true,
      Option.map_some']
    rw [hadjname, hr, hnode]

/-- C10 (witness): `c10_node_adjust_identity` applied at longitude 123.5 with
a successful calculation result and the point name "sun". -/
theorem c10_node_adjust_identity_witness :
    Part2.nodeAdjust "node" (247/2) = 247/2 ∧
    Part2.processSwephResult (some ⟨false, 247/2⟩) "node" =
      (Part2.processSwephResult (some ⟨false, 247/2⟩) "sun").map
        (fun p => (("node" : String), p.2)) :=
  ⟨(c10_node_adjust_identity (247/2) (by norm_num) (by norm_num)).1,
   (c10_node_adjust_identity (247/2) (by norm_num) (by norm_num)).2 "sun"
     ⟨false, 247/2⟩ rfl⟩
